import Mathlib

/-!
Verification of the bulk-email dispatch engine of the email-backend
repository.  The JavaScript source is shallowly embedded: the account
rotation loop `getNextTransporter`, the retry loop `sendWithRetry`, the
sequential `/send-emails` job loop of `unnamed/part_001`, the batched
pipeline of `ok-slow.js`, and the `/send-bulk-emails` pipeline of
`index.js`.  Network sends are abstracted by an outcome oracle
(`outcome : String → Bool` gives the ultimate fate of a send to a
recipient, `errMsg` its error message on failure); everything else
follows the JavaScript line by line.
-/

namespace EmailBackend

/-- An SMTP account of the credential pool.  Only the `user` identity is
read by the dispatch logic (`smtpUsageCount` is keyed by `smtp.user`;
host, port and password are only passed through to the transport). -/
structure SmtpAccount where
  user : String
deriving DecidableEq, Repr

/-- The process-wide mutable globals of the `/send-emails` variants
(`unnamed/part_001`, `unnamed/part_002`, `ok-slow.js`):
`smtpCredentials`, `smtpUsageCount` (a JS object, so an absent key is
`none`), `currentSmtpIndex`, plus an allocation counter recording how
many transporter objects `createTransporter` has produced so far, used
to model transporter object identity. -/
structure PoolState where
  smtpCredentials : List SmtpAccount
  smtpUsageCount : String → Option Nat
  currentSmtpIndex : Nat
  transportersCreated : Nat

/-- The usage cap hard-coded in `getNextTransporter`\: the test is
`smtpUsageCount[smtp.user] < 490`. -/
def USAGE_CAP : Nat := 490

/-- The test `smtpUsageCount[smtp.user] < cap` with JS semantics: a
comparison against `undefined` is false. -/
def usageBelowCap (usage : String → Option Nat) (cap : Nat) (user : String) : Bool :=
  match usage user with
  | some n => n < cap
  | none => false

/-- A call of `createTransporter(smtp)`\: allocates a fresh
connection-pooled transporter object.  Object identity is modelled by
the allocation counter of the pool state. -/
def createTransporter (st : PoolState) : Nat × PoolState :=
  (st.transportersCreated, { st with transportersCreated := st.transportersCreated + 1 })

/-- What a successful `getNextTransporter()` call returns: the (fresh)
transporter, the selected account, and the updated globals. -/
structure Selection where
  transporterId : Nat
  smtp : SmtpAccount
  state : PoolState

/-- The `while (true)` body of `getNextTransporter`, run with explicit
fuel: advance `currentSmtpIndex` by one modulo the pool size, and return
a fresh transporter for the account at the new cursor if its usage count
is below `cap`; otherwise loop.  `none` means the fuel ran out without
the loop returning — the JS loop has no other exit. -/
def getNextTransporterGo (cap : Nat) : Nat → PoolState → Option Selection
  | 0, _ => none
  | fuel + 1, st =>
    let idx := (st.currentSmtpIndex + 1) % st.smtpCredentials.length
    let st1 : PoolState := { st with currentSmtpIndex := idx }
    match st1.smtpCredentials[idx]? with
    | none => none
    | some smtp =>
      if usageBelowCap st1.smtpUsageCount cap smtp.user then
        let p := createTransporter st1
        some ⟨p.1, smtp, p.2⟩
      else
        getNextTransporterGo cap fuel st1

/-- `getNextTransporter()` of `unnamed/part_001` and `unnamed/part_002`\:
throw when the credential list is empty, otherwise run the unbounded
search loop (bounded here by `fuel`). -/
def getNextTransporter (cap fuel : Nat) (st : PoolState) : Except String (Option Selection) :=
  if st.smtpCredentials.isEmpty then
    .error "No SMTP credentials available."
  else
    .ok (getNextTransporterGo cap fuel st)

/-- Result of one `transporter.sendMail` attempt inside the retry loop. -/
inductive AttemptResult where
  | ok
  | err (msg : String)
deriving DecidableEq, Repr

/-- The value `sendWithRetry` returns. -/
inductive SendResult where
  | success
  | failure (msg : String)
deriving DecidableEq, Repr

/-- Trace of one `sendWithRetry` run: the returned value (`none` models
the JS `undefined` returned when the loop body never runs, i.e. when
`retries = 0`), the number of `sendMail` attempts made, and the list of
waits inserted between attempts, in order. -/
structure RetryTrace where
  result : Option SendResult
  attempts : Nat
  waits : List Nat
deriving DecidableEq, Repr

/-- The loop `for (let i = 0; i < retries; i++)` of `sendWithRetry`,
with `remaining = retries - i` as the recursion measure.  `script i`
gives the outcome of the i-th `sendMail` attempt and `backoff i` the
wait inserted after a failed attempt `i` that is not the last. -/
def retryGo (backoff : Nat → Nat) (script : Nat → AttemptResult) (i : Nat) :
    Nat → RetryTrace
  | 0 => ⟨none, 0, []⟩
  | remaining + 1 =>
    match script i with
    | .ok => ⟨some .success, 1, []⟩
    | .err m =>
      if remaining = 0 then
        ⟨some (.failure m), 1, []⟩
      else
        ⟨(retryGo backoff script (i + 1) remaining).result,
         (retryGo backoff script (i + 1) remaining).attempts + 1,
         backoff i :: (retryGo backoff script (i + 1) remaining).waits⟩

/-- `sendWithRetry(email, transporter, mailOptions, retries)` with the
send attempts abstracted by `script`. -/
def sendWithRetry (backoff : Nat → Nat) (script : Nat → AttemptResult)
    (retries : Nat) : RetryTrace :=
  retryGo backoff script 0 retries

/-- The wait before retrying in `unnamed/part_001`\:
`1000 * (i + 1)` milliseconds. -/
def part001Backoff (i : Nat) : Nat := 1000 * (i + 1)

/-- The wait before retrying in `ok-slow.js`\:
`200 * Math.pow(2, i)` milliseconds. -/
def okSlowBackoff (i : Nat) : Nat := 200 * 2 ^ i

/-- The retry budget: `retries = 3` is the default parameter value and
every call site uses it. -/
def RETRY_LIMIT : Nat := 3

/-! The `/send-bulk-emails` pipeline of `index.js`. -/

/-- Status of one email in the `/send-bulk-emails` pipeline of `index.js`. -/
inductive EmailStatus where
  | sent
  | failed
deriving DecidableEq, Repr

/-- The object `sendEmailWithDelay` resolves with. -/
structure EmailResult where
  email : String
  status : EmailStatus
  log : String
deriving DecidableEq, Repr

/-- `sendEmailWithDelay` of `index.js`\: always resolves (the promise is
never rejected), with status "sent" or "failed" according to the
outcome of its single `sendMail` call. -/
def sendEmailWithDelay (outcome : String → Bool) (errMsg : String → String)
    (email : String) : EmailResult :=
  if outcome email then
    ⟨email, .sent, "✅ Email sent to: " ++ email⟩
  else
    ⟨email, .failed, "❌ Failed to send email to " ++ email ++ ": " ++ errMsg email⟩

/-- The JSON body fields read by `/send-bulk-emails`; `none` models an
absent `emails` field (truthiness and `Array.isArray` collapse to
presence once the field is typed), and the empty string is the falsy
case of the string fields. -/
structure BulkRequest where
  emails : Option (List String)
  subject : String
  text : String
  html : String

/-- The validation of `index.js` (identical in `unnamed/part_000` and
`speed.js`): `!emails || !Array.isArray(emails) || !subject ||
(!text && !html)`.  There is no check that the list is non-empty. -/
def validBulkInput (r : BulkRequest) : Bool :=
  r.emails.isSome && (r.subject != "") && ((r.text != "") || (r.html != ""))

/-- The success response body of the bulk-send handlers. -/
structure BulkResponse where
  totalEmails : Nat
  sentSuccessfully : Nat
  failedEmails : List String
  logs : List String
deriving DecidableEq, Repr

/-- The `/send-bulk-emails` handler of `index.js`\: validate, then send
to each recipient in input order collecting one result per recipient,
then aggregate by filtering the collected results. -/
def bulkHandler (outcome : String → Bool) (errMsg : String → String)
    (r : BulkRequest) : Except String BulkResponse :=
  if !validBulkInput r then
    .error "Invalid input data"
  else
    let emails := r.emails.getD []
    let results := emails.map (sendEmailWithDelay outcome errMsg)
    .ok
      { totalEmails := emails.length
        sentSuccessfully := (results.filter (fun x => x.status == .sent)).length
        failedEmails := (results.filter (fun x => x.status == .failed)).map (·.email)
        logs := results.map (·.log) }

/-! The sequential `/send-emails` pipeline of `unnamed/part_001`
(identical dispatch loop in `unnamed/part_002`, minus the retry). -/

/-- One per-message record of the sequential `/send-emails` loop:
recipient, the selected account's user, and whether the (retried) send
ultimately succeeded.  This is the account-to-message assignment. -/
structure SendRecord where
  email : String
  user : String
  sent : Bool
deriving DecidableEq, Repr

/-- The accumulators of the `/send-emails` handler loop
(`successCount`, `failedEmails`, `logs`), plus the assignment records. -/
structure JobAgg where
  successCount : Nat
  failedEmails : List String
  logs : List String
  records : List SendRecord
deriving DecidableEq, Repr

/-- The statement `smtpUsageCount[smtp.user]++` (on an absent key the JS
increment produces `NaN`, which stays a non-number: modelled as `none`
staying `none`). -/
def bumpUsage (usage : String → Option Nat) (u : String) : String → Option Nat :=
  fun v => if v = u then (usage u).map (· + 1) else usage v

/-- `smtpUsageCount = {}` followed by `smtpUsageCount[cred.user] = 0`
for every credential: every pooled user maps to 0, every other key is
absent. -/
def initUsage (creds : List SmtpAccount) : String → Option Nat :=
  fun u => if creds.any (fun c => c.user == u) then some 0 else none

/-- One iteration of `for (let email of emails)` in the sequential
`/send-emails` handler of `unnamed/part_001`\: select an account through
the rotation loop, send with retry (abstracted by the ultimate outcome),
and increment the selected account's usage count exactly on success.
`none` propagates fuel exhaustion of the selection loop. -/
def seqJobStep (cap fuel : Nat) (outcome : String → Bool)
    (errMsg : String → String) (st : PoolState) (agg : JobAgg)
    (email : String) : Option (PoolState × JobAgg) :=
  match getNextTransporterGo cap fuel st with
  | none => none
  | some sel =>
    let smtp := sel.smtp
    if outcome email then
      some
        ({ sel.state with smtpUsageCount := bumpUsage sel.state.smtpUsageCount smtp.user },
         { agg with
            successCount := agg.successCount + 1
            logs := agg.logs ++ ["✅ Sent to: " ++ email ++ " using " ++ smtp.user]
            records := agg.records ++ [⟨email, smtp.user, true⟩] })
    else
      some
        (sel.state,
         { agg with
            failedEmails := agg.failedEmails ++ [email]
            logs := agg.logs ++ ["❌ Failed: " ++ email ++ " - " ++ errMsg email]
            records := agg.records ++ [⟨email, smtp.user, false⟩] })

/-- The whole `for (let email of emails)` loop. -/
def seqRun (cap fuel : Nat) (outcome : String → Bool) (errMsg : String → String) :
    List String → PoolState → JobAgg → Option (PoolState × JobAgg)
  | [], st, agg => some (st, agg)
  | email :: rest, st, agg =>
    match seqJobStep cap fuel outcome errMsg st agg email with
    | none => none
    | some (st1, agg1) => seqRun cap fuel outcome errMsg rest st1 agg1

/-- The request body fields read by the `/send-emails` handlers. -/
structure SendEmailsRequest where
  smtp_credentials : Option (List SmtpAccount)
  emails : Option (List String)
  subject : String
  text : String
  html : String

/-- The sequential `/send-emails` handler of `unnamed/part_001`\:
validate both lists, reset `smtpCredentials` and `smtpUsageCount`
(but not `currentSmtpIndex`), then run the send loop over the fresh
state.  The outer `Except` is request validation; the inner `Option` is
fuel exhaustion of the account-selection loop. -/
def sendEmailsHandler (cap fuel : Nat) (outcome : String → Bool)
    (errMsg : String → String) (r : SendEmailsRequest) (st : PoolState) :
    Except String (Option (PoolState × JobAgg)) :=
  match r.smtp_credentials with
  | none => .error "Invalid SMTP credentials."
  | some creds =>
    if creds.isEmpty then .error "Invalid SMTP credentials."
    else
      match r.emails with
      | none => .error "Invalid email data."
      | some emails =>
        if emails.isEmpty || r.subject == "" || (r.text == "" && r.html == "") then
          .error "Invalid email data."
        else
          let st0 : PoolState :=
            { st with smtpCredentials := creds, smtpUsageCount := initUsage creds }
          .ok (seqRun cap fuel outcome errMsg emails st0 ⟨0, [], [], []⟩)

/-- The response body built from the loop accumulators. -/
def seqResponse (emails : List String) (agg : JobAgg) : BulkResponse :=
  { totalEmails := emails.length
    sentSuccessfully := agg.successCount
    failedEmails := agg.failedEmails
    logs := agg.logs }

/-! The batched `/send-emails` pipeline of `ok-slow.js`. -/

/-- The object `sendWithRetry` resolves with, as consumed by the
aggregation loop of `ok-slow.js`\: `{success, email}` or
`{success: false, email, error}`. -/
structure SendMailResult where
  success : Bool
  email : String
  error : Option String
deriving DecidableEq, Repr

/-- The ultimate result of one message's `sendEmailLimited` call under
the outcome oracle. -/
def mockSend (outcome : String → Bool) (errMsg : String → String)
    (email : String) : SendMailResult :=
  if outcome email then ⟨true, email, none⟩ else ⟨false, email, some (errMsg email)⟩

/-- The body of the batching loop of `ok-slow.js`, with an explicit
recursion counter (each round removes at least one element, so a
counter equal to the list length never runs out; the counter-zero
fallback for a non-empty list is unreachable from `batchesOf50`). -/
def chunkGo : Nat → List String → List (List String)
  | _, [] => []
  | 0, e :: rest => [e :: rest]
  | fuel + 1, e :: rest => ((e :: rest).take 50) :: chunkGo fuel ((e :: rest).drop 50)

/-- The batching loop of `ok-slow.js`\:
`for (let i = 0; i < emails.length; i += BATCH_SIZE)` with
`BATCH_SIZE = 50`, producing `emails.slice(i, i + 50)` per round. -/
def batchesOf50 (l : List String) : List (List String) :=
  chunkGo l.length l

/-- `processBatch(batch, smtp)` of `ok-slow.js`\: create one fresh
transporter for the whole batch, then send every message of the batch
through it; per-message outcomes are given by the oracle.  Results come
back in batch order (`Promise.all` preserves the order of `map`). -/
def processBatch (outcome : String → Bool) (errMsg : String → String)
    (batch : List String) (st : PoolState) : List SendMailResult × PoolState :=
  let p := createTransporter st
  (batch.map (mockSend outcome errMsg), p.2)

/-- The `batches.map((batch, index) => processBatch(batch,
smtp_credentials[index % smtp_credentials.length]))` round of
`ok-slow.js` (the selected credential only feeds the transporter, which
the oracle abstracts), with the batch results flattened in order as by
`batchResults.flat()`. -/
def processBatches (outcome : String → Bool) (errMsg : String → String) :
    List (List String) → PoolState → List SendMailResult × PoolState
  | [], st => ([], st)
  | batch :: rest, st =>
    let p := processBatch outcome errMsg batch st
    let q := processBatches outcome errMsg rest p.2
    (p.1 ++ q.1, q.2)

/-- The aggregates of the `ok-slow.js` handler. -/
structure Aggregates where
  sentSuccessfully : Nat
  failedEmails : List String
  logs : List String
deriving DecidableEq, Repr

/-- The `batchResults.flat().forEach(...)` aggregation of `ok-slow.js`\:
count successes, collect failed recipients in order, build log lines. -/
def okSlowAggregate : List SendMailResult → Aggregates
  | [] => ⟨0, [], []⟩
  | r :: rest =>
    let a := okSlowAggregate rest
    if r.success then
      ⟨a.sentSuccessfully + 1, a.failedEmails, ("✅ Sent to: " ++ r.email) :: a.logs⟩
    else
      ⟨a.sentSuccessfully, r.email :: a.failedEmails,
       ("❌ Failed: " ++ r.email ++ " - " ++ r.error.getD "") :: a.logs⟩

/-- The batched `/send-emails` handler of `ok-slow.js`\: the same
validation and global reset as the sequential variant (in particular
`smtpUsageCount` is reset to all zeroes and `currentSmtpIndex` is left
alone), then batch, dispatch and aggregate.  No statement of this
handler ever increments a usage count or advances the rotation cursor. -/
def okSlowHandler (outcome : String → Bool) (errMsg : String → String)
    (r : SendEmailsRequest) (st : PoolState) :
    Except String (BulkResponse × PoolState) :=
  match r.smtp_credentials with
  | none => .error "Invalid SMTP credentials."
  | some creds =>
    if creds.isEmpty then .error "Invalid SMTP credentials."
    else
      match r.emails with
      | none => .error "Invalid email data."
      | some emails =>
        if emails.isEmpty || r.subject == "" || (r.text == "" && r.html == "") then
          .error "Invalid email data."
        else
          let st0 : PoolState :=
            { st with smtpCredentials := creds, smtpUsageCount := initUsage creds }
          let p := processBatches outcome errMsg (batchesOf50 emails) st0
          let a := okSlowAggregate p.1
          .ok
            ({ totalEmails := emails.length
               sentSuccessfully := a.sentSuccessfully
               failedEmails := a.failedEmails
               logs := a.logs }, p.2)

/-! The validation of `unnamed/part_002` (shared verbatim by
`unnamed/part_001` and `ok-slow.js`), as a standalone predicate. -/

/-- The two validation gates of the `/send-emails` handlers:
credentials present and non-empty; emails present and non-empty,
subject truthy, and at least one of text/html truthy. -/
def validSendEmailsInput (r : SendEmailsRequest) : Bool :=
  (match r.smtp_credentials with | some l => !l.isEmpty | none => false)
    && (match r.emails with | some l => !l.isEmpty | none => false)
    && (r.subject != "") && ((r.text != "") || (r.html != ""))

/-! Lemmas about the retry loop. -/

theorem retryGo_succ (backoff : Nat → Nat) (script : Nat → AttemptResult) (i n : Nat) :
    retryGo backoff script i (n + 1) =
      match script i with
      | .ok => ⟨some .success, 1, []⟩
      | .err m =>
        if n = 0 then ⟨some (.failure m), 1, []⟩
        else
          ⟨(retryGo backoff script (i + 1) n).result,
           (retryGo backoff script (i + 1) n).attempts + 1,
           backoff i :: (retryGo backoff script (i + 1) n).waits⟩ := rfl

theorem backoff_shift_map (backoff : Nat → Nat) (i k : Nat) :
    (List.range (k + 1)).map (fun t => backoff (i + t)) =
      backoff i :: (List.range k).map (fun t => backoff (i + 1 + t)) := by
  rw [List.range_succ_eq_map]
  simp only [List.map_cons, List.map_map, Nat.add_zero]
  refine congrArg₂ List.cons rfl ?_
  apply List.map_congr_left
  intro t _
  simp only [Function.comp_apply]
  exact congrArg backoff (by omega)

theorem retryGo_attempts_le (backoff : Nat → Nat) (script : Nat → AttemptResult) :
    ∀ (rem i : Nat), (retryGo backoff script i rem).attempts ≤ rem := by
  intro rem
  induction rem with
  | zero => intro i; simp [retryGo]
  | succ n ih =>
    intro i
    rw [retryGo_succ]
    cases h : script i with
    | ok => simp
    | err m =>
      by_cases hn : n = 0
      · simp [hn]
      · have := ih (i + 1)
        simp only [if_neg hn]
        omega

theorem retryGo_attempts_pos (backoff : Nat → Nat) (script : Nat → AttemptResult) :
    ∀ (n i : Nat), 1 ≤ (retryGo backoff script i (n + 1)).attempts := by
  intro n i
  rw [retryGo_succ]
  cases h : script i with
  | ok => simp
  | err m =>
    by_cases hn : n = 0
    · simp [hn]
    · simp [hn]

theorem retryGo_first_success (backoff : Nat → Nat) (script : Nat → AttemptResult) :
    ∀ (rem k i : Nat), k < rem → script (i + k) = .ok →
      (∀ j, j < k → script (i + j) ≠ .ok) →
      retryGo backoff script i rem =
        ⟨some .success, k + 1, (List.range k).map (fun t => backoff (i + t))⟩ := by
  intro rem
  induction rem with
  | zero => intro k i hk; omega
  | succ n ih =>
    intro k i hk hok hbefore
    cases k with
    | zero =>
      simp only [Nat.add_zero] at hok
      rw [retryGo_succ, hok]
      simp
    | succ k' =>
      have h0 : script i ≠ AttemptResult.ok := by
        have := hbefore 0 (Nat.succ_pos k')
        simpa using this
      cases h : script i with
      | ok => exact absurd h h0
      | err m =>
        have hn : n ≠ 0 := by omega
        have hrec := ih k' (i + 1) (by omega)
          (by rw [show i + 1 + k' = i + (k' + 1) by omega]; exact hok)
          (by intro j hj
              rw [show i + 1 + j = i + (j + 1) by omega]
              exact hbefore (j + 1) (by omega))
        rw [retryGo_succ, h]
        dsimp only
        rw [if_neg hn, hrec, backoff_shift_map]

theorem retryGo_all_fail (backoff : Nat → Nat) (script : Nat → AttemptResult) :
    ∀ (rem i : Nat) (m : String), 0 < rem →
      (∀ j, j < rem → script (i + j) ≠ .ok) →
      script (i + (rem - 1)) = .err m →
      retryGo backoff script i rem =
        ⟨some (.failure m), rem, (List.range (rem - 1)).map (fun t => backoff (i + t))⟩ := by
  intro rem
  induction rem with
  | zero => intro i m h; omega
  | succ n ih =>
    intro i m _ hfail hlast
    cases hn : n with
    | zero =>
      subst hn
      simp only [Nat.add_sub_cancel, Nat.add_zero] at hlast
      rw [retryGo_succ, hlast]
      simp
    | succ n' =>
      subst hn
      have h0 : script i ≠ AttemptResult.ok := by
        have := hfail 0 (by omega)
        simpa using this
      cases h : script i with
      | ok => exact absurd h h0
      | err m0 =>
        have hrec := ih (i + 1) m (by omega)
          (by intro j hj
              rw [show i + 1 + j = i + (j + 1) by omega]
              exact hfail (j + 1) (by omega))
          (by rw [show i + 1 + (n' + 1 - 1) = i + (n' + 1 + 1 - 1) by omega]; exact hlast)
        rw [retryGo_succ, h]
        dsimp only
        rw [if_neg (Nat.succ_ne_zero n'), hrec]
        simp only [Nat.add_sub_cancel]
        rw [backoff_shift_map]

theorem retryGo_waits_eq (backoff : Nat → Nat) (script : Nat → AttemptResult) :
    ∀ (rem i : Nat),
      (retryGo backoff script i rem).waits =
        (List.range ((retryGo backoff script i rem).attempts - 1)).map
          (fun t => backoff (i + t)) := by
  intro rem
  induction rem with
  | zero => intro i; simp [retryGo]
  | succ n ih =>
    intro i
    rw [retryGo_succ]
    cases h : script i with
    | ok => simp
    | err m =>
      by_cases hn : n = 0
      · simp [hn]
      · simp only [if_neg hn]
        obtain ⟨n', rfl⟩ : ∃ n', n = n' + 1 := ⟨n - 1, by omega⟩
        have hpos := retryGo_attempts_pos backoff script n' (i + 1)
        obtain ⟨a, ha⟩ : ∃ a, (retryGo backoff script (i + 1) (n' + 1)).attempts = a + 1 :=
          ⟨(retryGo backoff script (i + 1) (n' + 1)).attempts - 1, by omega⟩
        rw [ih (i + 1), ha]
        simp only [Nat.add_sub_cancel]
        rw [backoff_shift_map]

/-- C4: with the retry budget of 3 that every call site uses, the wait
inserted after a failed attempt i that is not the last equals
backoffBase * 2 ^ i for both retry loops — by definition in
`ok-slow.js` (base 200), and by numeric coincidence in
`unnamed/part_001`, whose linear `1000 * (i + 1)` agrees with
`1000 * 2 ^ i` on the only two waits (i = 0, 1) a budget of 3 can
produce; successive waits are strictly increasing; the waits actually
performed in any run are exactly the backoff values of the failed
non-final attempts; and no run makes more than `RETRY_LIMIT` attempts. -/
theorem retry_backoff_policy :
    (∀ i, i + 1 < RETRY_LIMIT → part001Backoff i = 1000 * 2 ^ i ∧ okSlowBackoff i = 200 * 2 ^ i)
    ∧ (∀ i j, i < j → part001Backoff i < part001Backoff j ∧ okSlowBackoff i < okSlowBackoff j)
    ∧ (∀ (backoff : Nat → Nat) (script : Nat → AttemptResult),
        (sendWithRetry backoff script RETRY_LIMIT).attempts ≤ RETRY_LIMIT)
    ∧ (∀ (backoff : Nat → Nat) (script : Nat → AttemptResult),
        (sendWithRetry backoff script RETRY_LIMIT).waits =
          (List.range ((sendWithRetry backoff script RETRY_LIMIT).attempts - 1)).map backoff) := by
  refine ⟨?_, ?_, ?_, ?_⟩
  · intro i hi
    simp only [RETRY_LIMIT] at hi
    have hi2 : i < 2 := by omega
    interval_cases i
    · exact ⟨by norm_num [part001Backoff], by norm_num [okSlowBackoff]⟩
    · exact ⟨by norm_num [part001Backoff], by norm_num [okSlowBackoff]⟩
  · intro i j hij
    constructor
    · simp only [part001Backoff]; omega
    · simp only [okSlowBackoff]
      exact mul_lt_mul_of_pos_left (Nat.pow_lt_pow_right one_lt_two hij) (by norm_num)
  · intro backoff script
    exact retryGo_attempts_le backoff script RETRY_LIMIT 0
  · intro backoff script
    have := retryGo_waits_eq backoff script RETRY_LIMIT 0
    simpa [sendWithRetry] using this

/-- C5: the retry loop returns exactly one outcome per message.  If the
first successful attempt is attempt k (zero-based), the returned trace
is a single success with exactly k + 1 attempts — no further attempts
after the success — and only the k earlier failures inserted waits; if
every attempt within the budget fails, the returned trace is a single
failure carrying the last attempt's error message, with exactly
`retries` attempts.  In both cases the result is one outcome, never one
per attempt. -/
theorem retry_single_outcome :
    (∀ (backoff : Nat → Nat) (script : Nat → AttemptResult) (retries k : Nat),
        k < retries → script k = .ok → (∀ j, j < k → script j ≠ .ok) →
        sendWithRetry backoff script retries =
          ⟨some .success, k + 1, (List.range k).map backoff⟩)
    ∧ (∀ (backoff : Nat → Nat) (script : Nat → AttemptResult) (retries : Nat) (m : String),
        0 < retries → (∀ j, j < retries → script j ≠ .ok) →
        script (retries - 1) = .err m →
        sendWithRetry backoff script retries =
          ⟨some (.failure m), retries, (List.range (retries - 1)).map backoff⟩) := by
  constructor
  · intro backoff script retries k hk hok hbefore
    have h := retryGo_first_success backoff script retries k 0 hk
      (by simpa using hok) (by simpa using hbefore)
    simpa [sendWithRetry] using h
  · intro backoff script retries m hpos hfail hlast
    have h := retryGo_all_fail backoff script retries 0 m hpos
      (by simpa using hfail) (by simpa using hlast)
    simpa [sendWithRetry] using h

/-! Lemmas about the account-selection loop. -/

theorem getNextTransporterGo_succ (cap fuel : Nat) (creds : List SmtpAccount)
    (usage : String → Option Nat) (cursor tc : Nat) :
    getNextTransporterGo cap (fuel + 1) ⟨creds, usage, cursor, tc⟩ =
      match creds[(cursor + 1) % creds.length]? with
      | none => none
      | some smtp =>
        if usageBelowCap usage cap smtp.user then
          some ⟨tc, smtp, ⟨creds, usage, (cursor + 1) % creds.length, tc + 1⟩⟩
        else
          getNextTransporterGo cap fuel ⟨creds, usage, (cursor + 1) % creds.length, tc⟩ := rfl

/-- C2: the claim is refuted by the code.  When every pooled account's
usage count is at or above the cap, the `while (true)` search loop of
`getNextTransporter` never returns, no matter how many cursor advances
it is allowed: it does not stop after one full cycle over the pool, and
no `PoolExhausted` failure is ever produced — the only guard in the code
is for an empty credential list. -/
theorem getNextTransporterGo_spins_when_all_capped
    (cap : Nat) (creds : List SmtpAccount) (usage : String → Option Nat)
    (hcap : ∀ a ∈ creds, usageBelowCap usage cap a.user = false) :
    ∀ (fuel cursor tc : Nat),
      getNextTransporterGo cap fuel ⟨creds, usage, cursor, tc⟩ = none := by
  intro fuel
  induction fuel with
  | zero => intro cursor tc; rfl
  | succ n ih =>
    intro cursor tc
    rw [getNextTransporterGo_succ]
    cases hidx : creds[(cursor + 1) % creds.length]? with
    | none => rfl
    | some smtp =>
      have hmem : smtp ∈ creds := List.getElem?_mem hidx
      simp only [hcap smtp hmem, Bool.false_eq_true, if_false]
      exact ih ((cursor + 1) % creds.length) tc

/-- A process state in which the single pooled account is exactly at the
hard-coded cap of 490. -/
def allCappedState : PoolState :=
  ⟨[⟨"a"⟩], fun u => if u = "a" then some 490 else none, 0, 0⟩

/-- Witness for C2's theorem at a concrete exhausted pool: even 1000
cursor advances (far more than the pool size 1) do not make the loop
return. -/
theorem getNextTransporterGo_spins_witness :
    getNextTransporterGo 490 1000 allCappedState = none :=
  getNextTransporterGo_spins_when_all_capped 490 [⟨"a"⟩]
    (fun u => if u = "a" then some 490 else none)
    (by intro a ha
        simp only [List.mem_singleton] at ha
        subst ha
        simp [usageBelowCap])
    1000 0 0

/-! Lemmas about the bulk pipeline of index.js. -/

theorem sendEmailWithDelay_email (outcome : String → Bool) (errMsg : String → String)
    (e : String) : (sendEmailWithDelay outcome errMsg e).email = e := by
  cases h : outcome e <;> simp [sendEmailWithDelay, h]

theorem filter_sent_map_send (outcome : String → Bool) (errMsg : String → String)
    (es : List String) :
    (es.map (sendEmailWithDelay outcome errMsg)).filter
        (fun x => x.status == EmailStatus.sent) =
      (es.filter (fun e => outcome e)).map (sendEmailWithDelay outcome errMsg) := by
  induction es with
  | nil => rfl
  | cons e t ih =>
    cases h : outcome e <;>
      simp [List.filter_cons, sendEmailWithDelay, h, ih]

theorem filter_failed_map_send (outcome : String → Bool) (errMsg : String → String)
    (es : List String) :
    (es.map (sendEmailWithDelay outcome errMsg)).filter
        (fun x => x.status == EmailStatus.failed) =
      (es.filter (fun e => !outcome e)).map (sendEmailWithDelay outcome errMsg) := by
  induction es with
  | nil => rfl
  | cons e t ih =>
    cases h : outcome e <;>
      simp [List.filter_cons, sendEmailWithDelay, h, ih]

theorem length_filter_add_length_filter_not (p : α → Bool) (l : List α) :
    (l.filter p).length + (l.filter (fun a => !p a)).length = l.length := by
  induction l with
  | nil => rfl
  | cons a t ih =>
    cases h : p a <;> simp [List.filter_cons, h] <;> omega

/-- Closed form of the `/send-bulk-emails` handler on a valid request. -/
theorem bulkHandler_eq (outcome : String → Bool) (errMsg : String → String)
    (es : List String) (subject text html : String)
    (hsub : subject ≠ "") (hbody : text ≠ "" ∨ html ≠ "") :
    bulkHandler outcome errMsg ⟨some es, subject, text, html⟩ = .ok
      { totalEmails := es.length
        sentSuccessfully := (es.filter (fun e => outcome e)).length
        failedEmails := es.filter (fun e => !outcome e)
        logs := (es.map (sendEmailWithDelay outcome errMsg)).map EmailResult.log } := by
  have hvalid : validBulkInput ⟨some es, subject, text, html⟩ = true := by
    simp only [validBulkInput, Option.isSome_some, Bool.true_and, Bool.and_eq_true,
      bne_iff_ne, ne_eq, Bool.or_eq_true]
    exact ⟨hsub, by tauto⟩
  unfold bulkHandler
  rw [hvalid]
  simp only [Bool.not_true, Bool.false_eq_true, if_false, Option.getD_some]
  refine congrArg Except.ok ?_
  simp only [BulkResponse.mk.injEq]
  refine ⟨trivial, ?_, ?_, trivial⟩
  · rw [filter_sent_map_send, List.length_map]
  · rw [filter_failed_map_send, List.map_map]
    have h2 : ((fun x : EmailResult => x.email) ∘ sendEmailWithDelay outcome errMsg) =
        fun e : String => e := by
      funext e
      exact sendEmailWithDelay_email outcome errMsg e
    rw [h2]
    simp

/-- C1: for every valid job, the `/send-bulk-emails` handler of
`index.js` completes and accounts for every recipient exactly once: the
success count counts exactly the recipients whose send succeeded, the
failed list is exactly the sublist of recipients whose send failed (so
no recipient is in both or in neither), and sentCount plus the length
of the failed list equals totalMessages — whatever the individual
outcomes are. -/
theorem bulk_job_accounts_every_recipient_once
    (outcome : String → Bool) (errMsg : String → String)
    (r : BulkRequest) (es : List String) (hes : r.emails = some es)
    (_hne : es ≠ []) (hsub : r.subject ≠ "") (hbody : r.text ≠ "" ∨ r.html ≠ "") :
    ∃ resp : BulkResponse,
      bulkHandler outcome errMsg r = .ok resp
      ∧ resp.totalEmails = es.length
      ∧ resp.sentSuccessfully + resp.failedEmails.length = resp.totalEmails
      ∧ resp.sentSuccessfully = (es.filter (fun e => outcome e)).length
      ∧ resp.failedEmails = es.filter (fun e => !outcome e) := by
  obtain ⟨em, subject, text, html⟩ := r
  cases hes
  exact ⟨_, bulkHandler_eq outcome errMsg es subject text html hsub hbody,
    rfl, length_filter_add_length_filter_not _ es, rfl, rfl⟩

/-! Specification lemmas for the selection loop and the sequential
job loop. -/

theorem getNextTransporterGo_some_spec (cap : Nat) :
    ∀ (fuel : Nat) (st : PoolState) (sel : Selection),
      getNextTransporterGo cap fuel st = some sel →
      sel.smtp ∈ st.smtpCredentials
      ∧ usageBelowCap st.smtpUsageCount cap sel.smtp.user = true
      ∧ sel.state.smtpUsageCount = st.smtpUsageCount
      ∧ sel.state.smtpCredentials = st.smtpCredentials
      ∧ sel.transporterId = st.transportersCreated
      ∧ sel.state.transportersCreated = st.transportersCreated + 1 := by
  intro fuel
  induction fuel with
  | zero => intro st sel h; cases h
  | succ n ih =>
    intro st sel h
    obtain ⟨creds, usage, cursor, tc⟩ := st
    rw [getNextTransporterGo_succ] at h
    cases hidx : creds[(cursor + 1) % creds.length]? with
    | none => rw [hidx] at h; cases h
    | some smtp =>
      rw [hidx] at h
      cases hb : usageBelowCap usage cap smtp.user with
      | true =>
        simp only [hb, if_true] at h
        cases h
        exact ⟨List.getElem?_mem hidx, hb, rfl, rfl, rfl, rfl⟩
      | false =>
        simp only [hb, Bool.false_eq_true, if_false] at h
        exact ih ⟨creds, usage, (cursor + 1) % creds.length, tc⟩ sel h

theorem seqJobStep_spec (cap fuel : Nat) (outcome : String → Bool)
    (errMsg : String → String) (st st1 : PoolState) (agg agg1 : JobAgg) (email : String)
    (h : seqJobStep cap fuel outcome errMsg st agg email = some (st1, agg1)) :
    ∃ sel : Selection,
      getNextTransporterGo cap fuel st = some sel
      ∧ sel.smtp ∈ st.smtpCredentials
      ∧ usageBelowCap st.smtpUsageCount cap sel.smtp.user = true
      ∧ st1.smtpCredentials = st.smtpCredentials
      ∧ (outcome email = true →
           st1.smtpUsageCount = bumpUsage st.smtpUsageCount sel.smtp.user
           ∧ agg1.successCount = agg.successCount + 1
           ∧ agg1.failedEmails = agg.failedEmails
           ∧ agg1.records = agg.records ++ [⟨email, sel.smtp.user, true⟩])
      ∧ (outcome email = false →
           st1.smtpUsageCount = st.smtpUsageCount
           ∧ agg1.successCount = agg.successCount
           ∧ agg1.failedEmails = agg.failedEmails ++ [email]
           ∧ agg1.records = agg.records ++ [⟨email, sel.smtp.user, false⟩]) := by
  unfold seqJobStep at h
  cases hsel : getNextTransporterGo cap fuel st with
  | none => rw [hsel] at h; cases h
  | some sel =>
    rw [hsel] at h
    obtain ⟨hmem, hb, husage, hcreds, _, _⟩ :=
      getNextTransporterGo_some_spec cap fuel st sel hsel
    cases ho : outcome email with
    | true =>
      simp only [ho, if_true] at h
      cases h
      refine ⟨sel, rfl, hmem, hb, hcreds, ?_, ?_⟩
      · intro _
        refine ⟨?_, rfl, rfl, rfl⟩
        rw [husage]
      · intro hfalse; cases hfalse
    | false =>
      simp only [ho, Bool.false_eq_true, if_false] at h
      cases h
      refine ⟨sel, rfl, hmem, hb, hcreds, ?_, ?_⟩
      · intro htrue; cases htrue
      · intro _
        exact ⟨husage, rfl, rfl, rfl⟩

/-- The usage-cap invariant: every account's usage counter is at most
`cap`. -/
def UsageWithinCap (cap : Nat) (st : PoolState) : Prop :=
  ∀ u n, st.smtpUsageCount u = some n → n ≤ cap

theorem seqJobStep_preserves_cap (cap fuel : Nat) (outcome : String → Bool)
    (errMsg : String → String) (st st1 : PoolState) (agg agg1 : JobAgg) (email : String)
    (h : seqJobStep cap fuel outcome errMsg st agg email = some (st1, agg1))
    (hinv : UsageWithinCap cap st) : UsageWithinCap cap st1 := by
  obtain ⟨sel, hsel, hmem, hb, hcreds, hsucc, hfail⟩ :=
    seqJobStep_spec cap fuel outcome errMsg st st1 agg agg1 email h
  cases ho : outcome email with
  | true =>
    obtain ⟨husage, -, -, -⟩ := hsucc ho
    intro u n hu
    rw [husage] at hu
    unfold bumpUsage at hu
    by_cases huser : u = sel.smtp.user
    · rw [if_pos huser] at hu
      unfold usageBelowCap at hb
      cases hk : st.smtpUsageCount sel.smtp.user with
      | none => rw [hk] at hu; cases hu
      | some k =>
        rw [hk] at hu hb
        simp only [Option.map_some', Option.some.injEq] at hu
        have : k < cap := by simpa using hb
        omega
    · rw [if_neg huser] at hu
      exact hinv u n hu
  | false =>
    obtain ⟨husage, -, -, -⟩ := hfail ho
    intro u n hu
    rw [husage] at hu
    exact hinv u n hu

theorem seqRun_preserves_cap (cap fuel : Nat) (outcome : String → Bool)
    (errMsg : String → String) :
    ∀ (emails : List String) (st : PoolState) (agg : JobAgg)
      (stF : PoolState) (aggF : JobAgg),
      seqRun cap fuel outcome errMsg emails st agg = some (stF, aggF) →
      UsageWithinCap cap st → UsageWithinCap cap stF := by
  intro emails
  induction emails with
  | nil =>
    intro st agg stF aggF h hinv
    unfold seqRun at h
    cases h
    exact hinv
  | cons email rest ih =>
    intro st agg stF aggF h hinv
    unfold seqRun at h
    cases hstep : seqJobStep cap fuel outcome errMsg st agg email with
    | none => rw [hstep] at h; cases h
    | some p =>
      rw [hstep] at h
      exact ih p.1 p.2 stF aggF h
        (seqJobStep_preserves_cap cap fuel outcome errMsg st p.1 agg p.2 email
          (by rw [hstep]) hinv)

theorem seqRun_totals (cap fuel : Nat) (outcome : String → Bool)
    (errMsg : String → String) :
    ∀ (emails : List String) (st : PoolState) (agg : JobAgg)
      (stF : PoolState) (aggF : JobAgg),
      seqRun cap fuel outcome errMsg emails st agg = some (stF, aggF) →
      aggF.successCount = agg.successCount + (emails.filter (fun e => outcome e)).length
      ∧ aggF.failedEmails = agg.failedEmails ++ emails.filter (fun e => !outcome e) := by
  intro emails
  induction emails with
  | nil =>
    intro st agg stF aggF h
    unfold seqRun at h
    cases h
    simp
  | cons email rest ih =>
    intro st agg stF aggF h
    unfold seqRun at h
    cases hstep : seqJobStep cap fuel outcome errMsg st agg email with
    | none => rw [hstep] at h; cases h
    | some p =>
      rw [hstep] at h
      obtain ⟨sel, -, -, -, -, hsucc, hfail⟩ :=
        seqJobStep_spec cap fuel outcome errMsg st p.1 agg p.2 email (by rw [hstep])
      obtain ⟨hs, hf⟩ := ih p.1 p.2 stF aggF h
      cases ho : outcome email with
      | true =>
        obtain ⟨-, hc, hfe, -⟩ := hsucc ho
        rw [hs, hc, hf, hfe]
        simp [List.filter_cons, ho]
        omega
      | false =>
        obtain ⟨-, hc, hfe, -⟩ := hfail ho
        rw [hs, hc, hf, hfe]
        simp [List.filter_cons, ho]

/-- Witness for C1 at a concrete valid job with one success and one
failure. -/
theorem bulk_job_accounts_witness :
    ∃ resp : BulkResponse,
      bulkHandler (fun e => e == "u") (fun _ => "boom")
          ⟨some ["u", "v"], "hello", "body", ""⟩ = .ok resp
      ∧ resp.totalEmails = (["u", "v"] : List String).length
      ∧ resp.sentSuccessfully + resp.failedEmails.length = resp.totalEmails
      ∧ resp.sentSuccessfully =
          ((["u", "v"] : List String).filter (fun e => (fun x => x == "u") e)).length
      ∧ resp.failedEmails =
          (["u", "v"] : List String).filter (fun e => !(fun x => x == "u") e) :=
  bulk_job_accounts_every_recipient_once (fun e => e == "u") (fun _ => "boom")
    ⟨some ["u", "v"], "hello", "body", ""⟩ ["u", "v"] rfl
    (by decide) (by decide) (Or.inl (by decide))

/-! Lemmas about the batched pipeline of ok-slow.js. -/

theorem flatten_chunkGo : ∀ (fuel : Nat) (l : List String), (chunkGo fuel l).flatten = l := by
  intro fuel
  induction fuel with
  | zero => intro l; cases l <;> simp [chunkGo]
  | succ n ih =>
    intro l
    cases l with
    | nil => simp [chunkGo]
    | cons e rest =>
      simp only [chunkGo, List.flatten_cons, ih]
      exact List.take_append_drop 50 (e :: rest)

theorem flatten_batchesOf50 (l : List String) : (batchesOf50 l).flatten = l :=
  flatten_chunkGo l.length l

theorem processBatches_fst (outcome : String → Bool) (errMsg : String → String) :
    ∀ (bs : List (List String)) (st : PoolState),
      (processBatches outcome errMsg bs st).1 = bs.flatten.map (mockSend outcome errMsg) := by
  intro bs
  induction bs with
  | nil => intro st; simp [processBatches]
  | cons b rest ih =>
    intro st
    simp [processBatches, processBatch, ih, List.map_append]

theorem processBatches_snd (outcome : String → Bool) (errMsg : String → String) :
    ∀ (bs : List (List String)) (st : PoolState),
      (processBatches outcome errMsg bs st).2 =
        { st with transportersCreated := st.transportersCreated + bs.length } := by
  intro bs
  induction bs with
  | nil => intro st; simp [processBatches]
  | cons b rest ih =>
    intro st
    simp only [processBatches, processBatch, createTransporter, ih, List.length_cons]
    congr 1
    omega

theorem okSlowAggregate_counts (outcome : String → Bool) (errMsg : String → String) :
    ∀ l : List String,
      (okSlowAggregate (l.map (mockSend outcome errMsg))).sentSuccessfully =
          (l.filter (fun e => outcome e)).length
      ∧ (okSlowAggregate (l.map (mockSend outcome errMsg))).failedEmails =
          l.filter (fun e => !outcome e) := by
  intro l
  induction l with
  | nil => exact ⟨rfl, rfl⟩
  | cons e rest ih =>
    cases h : outcome e <;>
      simp [okSlowAggregate, mockSend, h, List.filter_cons, ih.1, ih.2]

/-- Closed form of the `ok-slow.js` handler on a valid request: the
aggregates are pure functions of the outcomes, and the final global
state keeps the reset usage map untouched (no increment anywhere) and
the rotation cursor exactly as it was. -/
theorem okSlowHandler_eq (outcome : String → Bool) (errMsg : String → String)
    (creds : List SmtpAccount) (emails : List String) (subject text html : String)
    (st : PoolState) (hcreds : creds ≠ []) (hemails : emails ≠ [])
    (hsub : subject ≠ "") (hbody : text ≠ "" ∨ html ≠ "") :
    okSlowHandler outcome errMsg ⟨some creds, some emails, subject, text, html⟩ st =
      .ok
        ({ totalEmails := emails.length
           sentSuccessfully := (emails.filter (fun e => outcome e)).length
           failedEmails := emails.filter (fun e => !outcome e)
           logs := (okSlowAggregate (emails.map (mockSend outcome errMsg))).logs },
         ⟨creds, initUsage creds, st.currentSmtpIndex,
          st.transportersCreated + (batchesOf50 emails).length⟩) := by
  have h1 : creds.isEmpty = false := by
    cases creds with
    | nil => exact absurd rfl hcreds
    | cons c t => rfl
  have h2 : (emails.isEmpty || subject == "" || (text == "" && html == "")) = false := by
    cases emails with
    | nil => exact absurd rfl hemails
    | cons e t =>
      simp only [List.isEmpty_cons, Bool.false_or]
      simp only [Bool.or_eq_false_iff, Bool.and_eq_false_iff, beq_eq_false_iff_ne, ne_eq]
      refine ⟨hsub, ?_⟩
      tauto
  unfold okSlowHandler
  dsimp only
  rw [h1]
  simp only [Bool.false_eq_true, if_false]
  rw [h2]
  simp only [Bool.false_eq_true, if_false]
  have hfst := processBatches_fst outcome errMsg (batchesOf50 emails)
    ⟨creds, initUsage creds, st.currentSmtpIndex, st.transportersCreated⟩
  have hsnd := processBatches_snd outcome errMsg (batchesOf50 emails)
    ⟨creds, initUsage creds, st.currentSmtpIndex, st.transportersCreated⟩
  rw [flatten_batchesOf50] at hfst
  refine congrArg Except.ok ?_
  refine congrArg₂ Prod.mk ?_ ?_
  · rw [hfst]
    simp only [BulkResponse.mk.injEq]
    exact ⟨trivial, (okSlowAggregate_counts outcome errMsg emails).1,
      (okSlowAggregate_counts outcome errMsg emails).2, trivial⟩
  · rw [hsnd]

/-- Closed form of the sequential `/send-emails` handler of
`unnamed/part_001` on a valid request: the validation passes, the
credential list and the usage map are rebuilt fresh, and the rotation
cursor and the transporter-allocation counter carry over from the
process state into the job's dispatch loop. -/
theorem sendEmailsHandler_eq (cap fuel : Nat) (outcome : String → Bool)
    (errMsg : String → String) (creds : List SmtpAccount) (emails : List String)
    (subject text html : String) (st : PoolState)
    (hcreds : creds ≠ []) (hemails : emails ≠ [])
    (hsub : subject ≠ "") (hbody : text ≠ "" ∨ html ≠ "") :
    sendEmailsHandler cap fuel outcome errMsg
        ⟨some creds, some emails, subject, text, html⟩ st =
      .ok (seqRun cap fuel outcome errMsg emails
        ⟨creds, initUsage creds, st.currentSmtpIndex, st.transportersCreated⟩
        ⟨0, [], [], []⟩) := by
  have h1 : creds.isEmpty = false := by
    cases creds with
    | nil => exact absurd rfl hcreds
    | cons c t => rfl
  have h2 : (emails.isEmpty || subject == "" || (text == "" && html == "")) = false := by
    cases emails with
    | nil => exact absurd rfl hemails
    | cons e t =>
      simp only [List.isEmpty_cons, Bool.false_or]
      simp only [Bool.or_eq_false_iff, Bool.and_eq_false_iff, beq_eq_false_iff_ne, ne_eq]
      refine ⟨hsub, ?_⟩
      tauto
  unfold sendEmailsHandler
  dsimp only
  rw [h1]
  simp only [Bool.false_eq_true, if_false]
  rw [h2]
  simp only [Bool.false_eq_true, if_false]

/-! Claim theorems about usage counters, validation, rotation order,
sender reuse, refinement and job isolation. -/

/-- C3 counterexample: in the batched `ok-slow.js` variant a successful
send does not increment the selected account's usage counter — a job
with one account and one message whose send succeeds reports one
success yet leaves the account's counter at 0, not 1. -/
theorem okSlow_success_without_usage_increment :
    ∃ (resp : BulkResponse) (stF : PoolState),
      okSlowHandler (fun _ => true) (fun _ => "boom")
          ⟨some [⟨"a"⟩], some ["x"], "s", "t", ""⟩ ⟨[], fun _ => none, 0, 0⟩ =
        .ok (resp, stF)
      ∧ resp.sentSuccessfully = 1
      ∧ stF.smtpUsageCount "a" = some 0
      ∧ stF.smtpUsageCount "a" ≠ some 1 := by
  refine ⟨_, _, rfl, rfl, rfl, by decide⟩

/-- C3 amended: in the sequential `/send-emails` variant the claim
holds — every dispatch step preserves the no-counter-above-cap
invariant (hence it holds throughout the job and, shown for full runs,
at its end), a successful send increments exactly the selected
account's counter by one while a failed send leaves the usage map
unchanged, and a job starts with every pooled counter at 0.  In the
batched `ok-slow.js` variant, however, the usage map is reset at job
start and then never incremented: at job end it is still the initial
all-zero map. -/
theorem usage_cap_and_increment_amended :
    (∀ (cap fuel : Nat) (outcome : String → Bool) (errMsg : String → String)
       (st st1 : PoolState) (agg agg1 : JobAgg) (email : String),
       seqJobStep cap fuel outcome errMsg st agg email = some (st1, agg1) →
       UsageWithinCap cap st → UsageWithinCap cap st1)
    ∧ (∀ (cap fuel : Nat) (outcome : String → Bool) (errMsg : String → String)
       (emails : List String) (st : PoolState) (agg : JobAgg)
       (stF : PoolState) (aggF : JobAgg),
       seqRun cap fuel outcome errMsg emails st agg = some (stF, aggF) →
       UsageWithinCap cap st → UsageWithinCap cap stF)
    ∧ (∀ (cap fuel : Nat) (outcome : String → Bool) (errMsg : String → String)
       (st st1 : PoolState) (agg agg1 : JobAgg) (email : String),
       seqJobStep cap fuel outcome errMsg st agg email = some (st1, agg1) →
       ∃ sel : Selection,
         getNextTransporterGo cap fuel st = some sel
         ∧ (outcome email = true →
              st1.smtpUsageCount sel.smtp.user =
                (st.smtpUsageCount sel.smtp.user).map (· + 1)
              ∧ ∀ v, v ≠ sel.smtp.user → st1.smtpUsageCount v = st.smtpUsageCount v)
         ∧ (outcome email = false → st1.smtpUsageCount = st.smtpUsageCount))
    ∧ (∀ (creds : List SmtpAccount) (u : String) (n : Nat),
       initUsage creds u = some n → n = 0)
    ∧ (∀ (outcome : String → Bool) (errMsg : String → String)
       (creds : List SmtpAccount) (emails : List String)
       (subject text html : String) (st : PoolState)
       (resp : BulkResponse) (stF : PoolState),
       okSlowHandler outcome errMsg ⟨some creds, some emails, subject, text, html⟩ st =
         .ok (resp, stF) →
       stF.smtpUsageCount = initUsage creds) := by
  refine ⟨?_, ?_, ?_, ?_, ?_⟩
  · intro cap fuel outcome errMsg st st1 agg agg1 email h hinv
    exact seqJobStep_preserves_cap cap fuel outcome errMsg st st1 agg agg1 email h hinv
  · intro cap fuel outcome errMsg emails st agg stF aggF h hinv
    exact seqRun_preserves_cap cap fuel outcome errMsg emails st agg stF aggF h hinv
  · intro cap fuel outcome errMsg st st1 agg agg1 email h
    obtain ⟨sel, hsel, -, -, -, hsucc, hfail⟩ :=
      seqJobStep_spec cap fuel outcome errMsg st st1 agg agg1 email h
    refine ⟨sel, hsel, ?_, ?_⟩
    · intro ho
      obtain ⟨husage, -, -, -⟩ := hsucc ho
      constructor
      · rw [husage]
        unfold bumpUsage
        rw [if_pos rfl]
      · intro v hv
        rw [husage]
        unfold bumpUsage
        rw [if_neg hv]
    · intro ho
      obtain ⟨husage, -, -, -⟩ := hfail ho
      exact husage
  · intro creds u n h
    unfold initUsage at h
    by_cases hc : creds.any (fun c => c.user == u) = true
    · rw [if_pos hc] at h
      cases h
      rfl
    · rw [if_neg hc] at h
      cases h
  · intro outcome errMsg creds emails subject text html st resp stF h
    unfold okSlowHandler at h
    dsimp only at h
    cases h1 : creds.isEmpty with
    | true => simp [h1] at h
    | false =>
      rw [h1] at h
      simp only [Bool.false_eq_true, if_false] at h
      by_cases h2 : (emails.isEmpty || subject == "" || (text == "" && html == "")) = true
      · rw [if_pos h2] at h
        cases h
      · rw [if_neg h2] at h
        injection h with h'
        have hsnd : (processBatches outcome errMsg (batchesOf50 emails)
            ⟨creds, initUsage creds, st.currentSmtpIndex, st.transportersCreated⟩).2 = stF :=
          congrArg Prod.snd h'
        rw [processBatches_snd] at hsnd
        rw [← hsnd]

/-- C6 counterexample: `index.js` does not reject an empty message
list — a request with an empty array and otherwise-valid fields passes
validation and the job completes with all-zero totals instead of
failing fast. -/
theorem bulk_empty_list_not_rejected :
    validBulkInput ⟨some [], "s", "t", ""⟩ = true
    ∧ bulkHandler (fun _ => true) (fun _ => "boom") ⟨some [], "s", "t", ""⟩ =
        .ok ⟨0, 0, [], []⟩ :=
  ⟨rfl, rfl⟩

/-- C6 amended: the `/send-emails` handlers (`unnamed/part_001`,
`unnamed/part_002`, `ok-slow.js`) fail fast with an invalid-input
response whenever the pool is absent or empty, the message list is
absent or empty, the subject is missing, or both body variants are
missing — before any account selection or dispatch; the
`/send-bulk-emails` handler of `index.js` rejects a missing subject or
missing bodies but does not reject an empty message list: it accepts it
and completes trivially with zero totals. -/
theorem invalid_job_fails_fast_amended :
    (∀ (cap fuel : Nat) (outcome : String → Bool) (errMsg : String → String)
       (r : SendEmailsRequest) (st : PoolState),
       validSendEmailsInput r = false →
       (∃ m, sendEmailsHandler cap fuel outcome errMsg r st = .error m)
       ∧ (∃ m, okSlowHandler outcome errMsg r st = .error m))
    ∧ (∀ (outcome : String → Bool) (errMsg : String → String) (subject text html : String),
       subject ≠ "" → (text ≠ "" ∨ html ≠ "") →
       bulkHandler outcome errMsg ⟨some [], subject, text, html⟩ = .ok ⟨0, 0, [], []⟩) := by
  constructor
  · intro cap fuel outcome errMsg r st hv
    obtain ⟨mcreds, memails, subject, text, html⟩ := r
    cases mcreds with
    | none => exact ⟨⟨_, rfl⟩, ⟨_, rfl⟩⟩
    | some creds =>
      cases h1 : creds.isEmpty with
      | true =>
        constructor
        · exact ⟨"Invalid SMTP credentials.", by
            unfold sendEmailsHandler; dsimp only; rw [h1]; simp⟩
        · exact ⟨"Invalid SMTP credentials.", by
            unfold okSlowHandler; dsimp only; rw [h1]; simp⟩
      | false =>
        cases memails with
        | none =>
          constructor
          · exact ⟨"Invalid email data.", by
              unfold sendEmailsHandler; dsimp only; rw [h1]; simp⟩
          · exact ⟨"Invalid email data.", by
              unfold okSlowHandler; dsimp only; rw [h1]; simp⟩
        | some emails =>
          have h2 : (emails.isEmpty || subject == "" || (text == "" && html == "")) = true := by
            unfold validSendEmailsInput at hv
            simp only [h1] at hv
            simp at hv
            by_cases he : emails = []
            · simp [he]
            · by_cases hs : subject = ""
              · simp [hs]
              · obtain ⟨ht, hh⟩ := hv he hs
                simp [ht, hh]
          constructor
          · exact ⟨"Invalid email data.", by
              unfold sendEmailsHandler
              dsimp only
              rw [h1]
              simp only [Bool.false_eq_true, if_false]
              rw [h2]
              simp⟩
          · exact ⟨"Invalid email data.", by
              unfold okSlowHandler
              dsimp only
              rw [h1]
              simp only [Bool.false_eq_true, if_false]
              rw [h2]
              simp⟩
  · intro outcome errMsg subject text html hsub hbody
    exact bulkHandler_eq outcome errMsg [] subject text html hsub hbody

/-- The Scenario A request: three accounts, five messages. -/
def scenarioAReq : SendEmailsRequest :=
  ⟨some [⟨"a"⟩, ⟨"b"⟩, ⟨"c"⟩], some ["e1", "e2", "e3", "e4", "e5"], "s", "t", ""⟩

/-- A fresh process state: no pool, empty usage object, rotation cursor
and allocation counter both 0. -/
def freshState : PoolState := ⟨[], fun _ => none, 0, 0⟩

/-- C7 counterexample: in Scenario A (3 accounts capped at 2, 5
messages, all sends succeeding, fresh process state) the rotation does
not start from account 0: the cursor is pre-advanced before the
eligibility test, so the first message goes to account 1 ("b"), and
account 0 ("a") ends with usage 1, not the 2 the claim asserts. -/
theorem scenarioA_not_round_robin_from_account0 :
    ∃ (stF : PoolState) (aggF : JobAgg),
      sendEmailsHandler 2 5 (fun _ => true) (fun _ => "boom") scenarioAReq freshState =
        .ok (some (stF, aggF))
      ∧ aggF.records.map SendRecord.user = ["b", "c", "a", "b", "c"]
      ∧ stF.smtpUsageCount "a" = some 1
      ∧ stF.smtpUsageCount "a" ≠ some 2 := by
  refine ⟨_, _, rfl, rfl, rfl, by decide⟩

/-- C7 amended: in Scenario A the per-account usage distribution is
{2,2,1} only as a multiset; the round-robin starts from account 1
because `getNextTransporter` advances the cursor before testing, so the
assignment order is b, c, a, b, c and the final usage is a ↦ 1, b ↦ 2,
c ↦ 2, with no failed recipients and five successes.  The run is
identical under the cap 490 hard-coded in the source (the cap never
binds for five messages). -/
theorem scenarioA_round_robin_amended :
    ∃ (stF : PoolState) (aggF : JobAgg) (stF2 : PoolState) (aggF2 : JobAgg),
      sendEmailsHandler 2 5 (fun _ => true) (fun _ => "boom") scenarioAReq freshState =
        .ok (some (stF, aggF))
      ∧ sendEmailsHandler USAGE_CAP 5 (fun _ => true) (fun _ => "boom") scenarioAReq
          freshState = .ok (some (stF2, aggF2))
      ∧ aggF2.records = aggF.records
      ∧ aggF.records.map SendRecord.user = ["b", "c", "a", "b", "c"]
      ∧ aggF.successCount = 5
      ∧ aggF.failedEmails = []
      ∧ stF.smtpUsageCount "a" = some 1
      ∧ stF.smtpUsageCount "b" = some 2
      ∧ stF.smtpUsageCount "c" = some 2
      ∧ [(stF.smtpUsageCount "a").getD 0, (stF.smtpUsageCount "b").getD 0,
         (stF.smtpUsageCount "c").getD 0].Perm [2, 2, 1] := by
  refine ⟨_, _, _, _, rfl, rfl, rfl, rfl, rfl, rfl, rfl, rfl, rfl, by decide⟩

/-- C8 counterexample: two consecutive selections that pick the same
account return two different transporters — `createTransporter` is
called anew inside every `getNextTransporter` call, so the sender is
not reused within a job. -/
theorem same_account_selections_get_distinct_transporters :
    ∃ sel1 sel2 : Selection,
      getNextTransporterGo 490 10 ⟨[⟨"a"⟩], initUsage [⟨"a"⟩], 0, 0⟩ = some sel1
      ∧ getNextTransporterGo 490 10 sel1.state = some sel2
      ∧ sel1.smtp = sel2.smtp
      ∧ sel1.transporterId ≠ sel2.transporterId := by
  refine ⟨_, _, rfl, rfl, rfl, by decide⟩

/-- C8 amended: obtaining a sender is not idempotent — every successful
account selection allocates a brand-new connection-pooled transporter
(its identity is the value of the allocation counter, which the call
increments), so two selections of the same account within one job yield
two distinct senders. -/
theorem selection_always_creates_new_transporter
    (cap fuel : Nat) (st : PoolState) (sel : Selection)
    (h : getNextTransporterGo cap fuel st = some sel) :
    sel.transporterId = st.transportersCreated
    ∧ sel.state.transportersCreated = st.transportersCreated + 1 := by
  obtain ⟨-, -, -, -, h5, h6⟩ := getNextTransporterGo_some_spec cap fuel st sel h
  exact ⟨h5, h6⟩

/-- Witness for the C8 amended theorem at a concrete selection. -/
theorem selection_always_creates_new_transporter_witness :
    ∃ sel : Selection,
      getNextTransporterGo 490 10 ⟨[⟨"a"⟩], initUsage [⟨"a"⟩], 5, 7⟩ = some sel
      ∧ sel.transporterId = 7 ∧ sel.state.transportersCreated = 8 := by
  have h : getNextTransporterGo 490 10 ⟨[⟨"a"⟩], initUsage [⟨"a"⟩], 5, 7⟩ =
      some ⟨7, ⟨"a"⟩, ⟨[⟨"a"⟩], initUsage [⟨"a"⟩], 0, 8⟩⟩ := rfl
  exact ⟨_, h, (selection_always_creates_new_transporter 490 10 _ _ h).1,
    (selection_always_creates_new_transporter 490 10 _ _ h).2⟩

/-- C9: given the same fixed assignment of mocked per-recipient
outcomes, the fully sequential `/send-bulk-emails` pipeline of
`index.js` and the batched `/send-emails` pipeline of `ok-slow.js`
produce the same aggregate totals: the same totalMessages, the same
sentCount, and the same failed-recipient list (hence the same set). -/
theorem seq_and_batched_same_totals
    (outcome : String → Bool) (errMsg errMsg2 : String → String)
    (creds : List SmtpAccount) (emails : List String)
    (subject text html : String) (st : PoolState)
    (hcreds : creds ≠ []) (hemails : emails ≠ [])
    (hsub : subject ≠ "") (hbody : text ≠ "" ∨ html ≠ "") :
    ∃ (respSeq respBatch : BulkResponse) (stF : PoolState),
      bulkHandler outcome errMsg ⟨some emails, subject, text, html⟩ = .ok respSeq
      ∧ okSlowHandler outcome errMsg2 ⟨some creds, some emails, subject, text, html⟩ st =
          .ok (respBatch, stF)
      ∧ respSeq.totalEmails = respBatch.totalEmails
      ∧ respSeq.sentSuccessfully = respBatch.sentSuccessfully
      ∧ respSeq.failedEmails = respBatch.failedEmails := by
  refine ⟨_, _, _, bulkHandler_eq outcome errMsg emails subject text html hsub hbody,
    okSlowHandler_eq outcome errMsg2 creds emails subject text html st hcreds hemails
      hsub hbody, rfl, rfl, rfl⟩

/-- Witness for C9 at a concrete job with one success and one failure. -/
theorem seq_and_batched_same_totals_witness :
    ∃ (respSeq respBatch : BulkResponse) (stF : PoolState),
      bulkHandler (fun e => e == "u") (fun _ => "boom")
          ⟨some ["u", "v"], "s", "t", ""⟩ = .ok respSeq
      ∧ okSlowHandler (fun e => e == "u") (fun _ => "bang")
          ⟨some [⟨"a"⟩], some ["u", "v"], "s", "t", ""⟩ ⟨[], fun _ => none, 0, 0⟩ =
          .ok (respBatch, stF)
      ∧ respSeq.totalEmails = respBatch.totalEmails
      ∧ respSeq.sentSuccessfully = respBatch.sentSuccessfully
      ∧ respSeq.failedEmails = respBatch.failedEmails :=
  seq_and_batched_same_totals (fun e => e == "u") (fun _ => "boom") (fun _ => "bang")
    [⟨"a"⟩] ["u", "v"] "s" "t" "" ⟨[], fun _ => none, 0, 0⟩
    (by decide) (by decide) (by decide) (Or.inl (by decide))

/-- A two-account, one-message request used to exhibit cursor
carry-over between jobs. -/
def twoAcctReq : SendEmailsRequest :=
  ⟨some [⟨"a"⟩, ⟨"b"⟩], some ["x"], "s", "t", ""⟩

/-- C10 counterexample: running the very same job twice in a row gives
two different account-to-message assignments — the first job (from a
fresh process) sends through account "b", the second job sends through
account "a", because the rotation cursor of the first job survives into
the second.  So a later job's result does depend on the jobs that ran
before it. -/
theorem later_job_sees_earlier_jobs_cursor :
    ∃ (st1 : PoolState) (agg1 : JobAgg) (st2 : PoolState) (agg2 : JobAgg),
      sendEmailsHandler 490 10 (fun _ => true) (fun _ => "boom") twoAcctReq freshState =
        .ok (some (st1, agg1))
      ∧ sendEmailsHandler 490 10 (fun _ => true) (fun _ => "boom") twoAcctReq st1 =
        .ok (some (st2, agg2))
      ∧ agg1.records.map SendRecord.user = ["b"]
      ∧ agg2.records.map SendRecord.user = ["a"]
      ∧ agg1.records ≠ agg2.records := by
  refine ⟨_, _, _, _, rfl, rfl, rfl, rfl, by decide⟩

/-- C10 amended: the credential pool and all usage counters are rebuilt
fresh at the start of every `/send-emails` job, but the rotation cursor
(and the transporter-allocation counter) survive from the process state
into the next job's dispatch loop, so the account-to-message assignment
of a later job can depend on earlier jobs; the aggregate counts and the
failed-recipient list of a completed run, by contrast, are determined
by the mocked outcomes alone, independent of any inherited state. -/
theorem job_state_carryover_amended :
    (∀ (cap fuel : Nat) (outcome : String → Bool) (errMsg : String → String)
       (creds : List SmtpAccount) (emails : List String)
       (subject text html : String) (st : PoolState),
       creds ≠ [] → emails ≠ [] → subject ≠ "" → (text ≠ "" ∨ html ≠ "") →
       sendEmailsHandler cap fuel outcome errMsg
           ⟨some creds, some emails, subject, text, html⟩ st =
         .ok (seqRun cap fuel outcome errMsg emails
           ⟨creds, initUsage creds, st.currentSmtpIndex, st.transportersCreated⟩
           ⟨0, [], [], []⟩))
    ∧ (∀ (cap fuel : Nat) (outcome : String → Bool) (errMsg : String → String)
       (emails : List String) (st : PoolState) (agg : JobAgg)
       (stF : PoolState) (aggF : JobAgg),
       seqRun cap fuel outcome errMsg emails st agg = some (stF, aggF) →
       aggF.successCount = agg.successCount + (emails.filter (fun e => outcome e)).length
       ∧ aggF.failedEmails = agg.failedEmails ++ emails.filter (fun e => !outcome e)) := by
  constructor
  · intro cap fuel outcome errMsg creds emails subject text html st h1 h2 h3 h4
    exact sendEmailsHandler_eq cap fuel outcome errMsg creds emails subject text html st
      h1 h2 h3 h4
  · intro cap fuel outcome errMsg emails st agg stF aggF h
    exact seqRun_totals cap fuel outcome errMsg emails st agg stF aggF h

end EmailBackend
